import Mathlib

/-!
Verification development for the youBot arm kinematics solver
(`src/KinematicsSolver.h` of youbot_arm_controller).

The repository ships only the class header: every method body of
`KinematicsSolver` is absent, so each operation below is modelled from the
specification document, as recorded in its doc comment.  The C++ floating
point values (`double`, `float`, Eigen vectors and matrices) are embedded
as real numbers, `List ℝ` for the variable-length `VectorXd` arguments and
`Matrix (Fin n) (Fin n) ℝ` for the Eigen matrices.
-/

open Real

noncomputable section

namespace YoubotKinematics

/-- The four Denavit-Hartenberg parameters of one link, in the order used by
`KinematicsSolver::dhTransformation(theta, d, alpha, r)`. -/
structure DHParam where
  theta : ℝ
  d : ℝ
  alpha : ℝ
  r : ℝ

/-- Modelled from the spec: the body of `KinematicsSolver::dhTransformation` is
not in src (only its declaration in `KinematicsSolver.h`).  Spec section 4.1:
the standard DH convention matrix for one link, written out entrywise as the
missing implementation fills the 4x4 matrix. -/
def dhTransformation (θ d α r : ℝ) : Matrix (Fin 4) (Fin 4) ℝ :=
  !![Real.cos θ, -(Real.sin θ) * Real.cos α, Real.sin θ * Real.sin α, r * Real.cos θ;
     Real.sin θ, Real.cos θ * Real.cos α, -(Real.cos θ) * Real.sin α, r * Real.sin θ;
     0, Real.sin α, Real.cos α, d;
     0, 0, 0, 1]

/-- Rotation about the Z axis by `θ`, as a homogeneous transform. -/
def rotZ (θ : ℝ) : Matrix (Fin 4) (Fin 4) ℝ :=
  !![Real.cos θ, -(Real.sin θ), 0, 0;
     Real.sin θ, Real.cos θ, 0, 0;
     0, 0, 1, 0;
     0, 0, 0, 1]

/-- Translation along the Z axis by `d`, as a homogeneous transform. -/
def transZ (d : ℝ) : Matrix (Fin 4) (Fin 4) ℝ :=
  !![1, 0, 0, 0;
     0, 1, 0, 0;
     0, 0, 1, d;
     0, 0, 0, 1]

/-- Translation along the X axis by `r`, as a homogeneous transform. -/
def transX (r : ℝ) : Matrix (Fin 4) (Fin 4) ℝ :=
  !![1, 0, 0, r;
     0, 1, 0, 0;
     0, 0, 1, 0;
     0, 0, 0, 1]

/-- Rotation about the X axis by `α`, as a homogeneous transform. -/
def rotX (α : ℝ) : Matrix (Fin 4) (Fin 4) ℝ :=
  !![1, 0, 0, 0;
     0, Real.cos α, -(Real.sin α), 0;
     0, Real.sin α, Real.cos α, 0;
     0, 0, 0, 1]

/-- A 6-component TCP pose vector (X, Y, Z, Roll, Pitch, Yaw), the shape the
header documents for the `tcp` arguments of both public methods. -/
structure PoseVector where
  x : ℝ
  y : ℝ
  z : ℝ
  roll : ℝ
  pitch : ℝ
  yaw : ℝ

/-- Modelled from the spec: the two-argument arctangent used by the missing
pose-extraction code, embedding the C library atan2 the implementation calls. -/
def atan2 (y x : ℝ) : ℝ :=
  if 0 < x then Real.arctan (y / x)
  else if x < 0 then
    (if 0 ≤ y then Real.arctan (y / x) + π else Real.arctan (y / x) - π)
  else
    (if 0 < y then π / 2 else if y < 0 then -(π / 2) else 0)

/-- Rotation of 3-space about the Z axis. -/
def rot3Z (ψ : ℝ) : Matrix (Fin 3) (Fin 3) ℝ :=
  !![Real.cos ψ, -(Real.sin ψ), 0;
     Real.sin ψ, Real.cos ψ, 0;
     0, 0, 1]

/-- Rotation of 3-space about the Y axis. -/
def rot3Y (θ : ℝ) : Matrix (Fin 3) (Fin 3) ℝ :=
  !![Real.cos θ, 0, Real.sin θ;
     0, 1, 0;
     -(Real.sin θ), 0, Real.cos θ]

/-- Rotation of 3-space about the X axis. -/
def rot3X (φ : ℝ) : Matrix (Fin 3) (Fin 3) ℝ :=
  !![1, 0, 0;
     0, Real.cos φ, -(Real.sin φ);
     0, Real.sin φ, Real.cos φ]

/-- Modelled from the spec: the body of
`KinematicsSolver::convertTCPVectorToRotationMatrix` is not in src.  Spec
section 4.2: compose the Roll, Pitch, Yaw rotations in one fixed order; the
Z-Y-X (yaw, then pitch, then roll) convention is fixed here. -/
def convertTCPVectorToRotationMatrix (tcpVector : PoseVector) : Matrix (Fin 3) (Fin 3) ℝ :=
  rot3Z tcpVector.yaw * rot3Y tcpVector.pitch * rot3X tcpVector.roll

/-- Modelled from the spec: the rotation-to-Euler decomposition inside the
missing forward-kinematics body (spec section 4.2, direction (b)).  Inverse of
the Z-Y-X convention; the gimbal-lock rows (entry (2,0) at ±1, i.e. pitch at
±90°) are resolved by the fixed convention roll = 0, never by an error.
Returns (roll, pitch, yaw). -/
def convertRotationMatrixToTCPVector (tcpRotation : Matrix (Fin 3) (Fin 3) ℝ) : ℝ × ℝ × ℝ :=
  if tcpRotation 2 0 ≤ -1 then
    (0, π / 2, atan2 (tcpRotation 0 1) (tcpRotation 1 1))
  else if 1 ≤ tcpRotation 2 0 then
    (0, -(π / 2), atan2 (-(tcpRotation 0 1)) (tcpRotation 1 1))
  else
    (atan2 (tcpRotation 2 1) (tcpRotation 2 2), Real.arcsin (-(tcpRotation 2 0)),
      atan2 (tcpRotation 1 0) (tcpRotation 0 0))

/-- The rotation block of a homogeneous transform, written entrywise as the
missing implementation extracts the upper-left 3x3 block. -/
def rotationBlock (T : Matrix (Fin 4) (Fin 4) ℝ) : Matrix (Fin 3) (Fin 3) ℝ :=
  !![T 0 0, T 0 1, T 0 2;
     T 1 0, T 1 1, T 1 2;
     T 2 0, T 2 1, T 2 2]

/-- Reduction of an end-effector homogeneous transform to a pose vector:
translation column plus Euler decomposition of the rotation block. -/
def convertTransformToTCPVector (T : Matrix (Fin 4) (Fin 4) ℝ) : PoseVector :=
  ⟨T 0 3, T 1 3, T 2 3,
    (convertRotationMatrixToTCPVector (rotationBlock T)).1,
    (convertRotationMatrixToTCPVector (rotationBlock T)).2.1,
    (convertRotationMatrixToTCPVector (rotationBlock T)).2.2⟩

/-- The kinematics solver instance: it holds exactly the immutable DH
link-parameter table (spec section 3, LinkParameters). -/
structure KinematicsSolver where
  dhTable : List DHParam

/-- Modelled from the spec: the DH table the missing `KinematicsSolver.cpp`
hard-codes for the 5-link youBot arm.  The numeric values are not in src, so
representative constants (unit link offsets) are fixed here; spec sections 3
and 8 fix only that the table is constant, per-joint, and has 5 entries. -/
def youBotDHTable : List DHParam :=
  [⟨0, 1, 0, 0⟩, ⟨0, 0, 0, 1⟩, ⟨0, 0, 0, 1⟩, ⟨0, 0, 0, 1⟩, ⟨0, 0, 0, 1⟩]

/-- Modelled from the spec: the no-argument constructor `KinematicsSolver()`;
it installs the fixed DH table and nothing else. -/
def KinematicsSolver.create : KinematicsSolver := ⟨youBotDHTable⟩

/-- Left-to-right product of the per-link DH transforms, each link combining
its fixed parameters with its joint angle (spec section 4.3). -/
def chainTransform (links : List (DHParam × ℝ)) : Matrix (Fin 4) (Fin 4) ℝ :=
  links.foldl (fun M la => M * dhTransformation (la.1.theta + la.2) la.1.d la.1.alpha la.1.r) 1

/-- Modelled from the spec: the body of
`KinematicsSolver::forwardTransformation` is not in src.  Spec section 4.3:
reject a joint vector whose length differs from the configured link count,
otherwise compose the link transforms and reduce to a pose vector.  `none`
embeds the C++ return value false. -/
def forwardTransformation (solver : KinematicsSolver) (angles : List ℝ) : Option PoseVector :=
  if angles.length = solver.dhTable.length then
    some (convertTransformToTCPVector (chainTransform (solver.dhTable.zip angles)))
  else
    none

/-- Modelled from the spec: the body of
`KinematicsSolver::calculateDistanceBetweenTCPS` is not in src.  Spec section
4.4: Euclidean distance of the (X, Y, Z) triples. -/
def calculateDistanceBetweenTCPS (tcp1 tcp2 : PoseVector) : ℝ :=
  Real.sqrt ((tcp1.x - tcp2.x) ^ 2 + (tcp1.y - tcp2.y) ^ 2 + (tcp1.z - tcp2.z) ^ 2)

/-- Reduction of an angle difference modulo 2π into the half-open interval
(-π, π], the shortest angular distance of spec section 4.4. -/
def normalizeAngle (a : ℝ) : ℝ :=
  a - 2 * π * ((⌈a / (2 * π) - 1 / 2⌉ : ℤ) : ℝ)

/-- Modelled from the spec: the body of
`KinematicsSolver::calculateAngleErrorBetweenTCPS` is not in src.  Spec
section 4.4: sum of the per-component shortest angular distances of the three
RPY components. -/
def calculateAngleErrorBetweenTCPS (tcp1 tcp2 : PoseVector) : ℝ :=
  |normalizeAngle (tcp1.roll - tcp2.roll)| + |normalizeAngle (tcp1.pitch - tcp2.pitch)| +
    |normalizeAngle (tcp1.yaw - tcp2.yaw)|

/-- Modelled from the spec: the fixed position tolerance threshold of the
inverse solver (spec section 4.5; the numeric value is not in src). -/
def POS_TOLERANCE : ℝ := 1 / 100

/-- Modelled from the spec: the fixed orientation tolerance threshold of the
inverse solver (spec section 4.5; the numeric value is not in src). -/
def ANGLE_TOLERANCE : ℝ := 1 / 100

/-- Modelled from the spec: the fixed iteration budget of the numeric inverse
search (spec sections 4.5 and 5; the numeric value is not in src). -/
def MAX_ITERATIONS : Nat := 1000

/-- Modelled from the spec: the joint-limit check of the geometric branch
(spec section 4.5, step 1; the youBot limit values are not in src, symmetric
limits of magnitude π are fixed here). -/
def withinJointLimits (angles : List ℝ) : Prop :=
  ∀ a ∈ angles, |a| ≤ π

/-- The convergence test of the inverse solver: forward kinematics of the
candidate succeeds and both error metrics against the target are below their
thresholds (spec section 4.5). -/
def withinTolerance (solver : KinematicsSolver) (tcp : PoseVector) (angles : List ℝ) : Prop :=
  ∃ p, forwardTransformation solver angles = some p ∧
    calculateDistanceBetweenTCPS p tcp < POS_TOLERANCE ∧
    calculateAngleErrorBetweenTCPS p tcp < ANGLE_TOLERANCE

/-- Sum of the absolute r parameters of the table, the horizontal reach used
by the closed-form attempt. -/
def linkReach (solver : KinematicsSolver) : ℝ :=
  (solver.dhTable.map fun p => |p.r|).sum

/-- Modelled from the spec: the closed-form geometric candidate of the missing
`inverseTransformation` body (spec section 4.5, step 1).  The exact youBot
formulas are not in src; a representative closed form for the fixed 5-link
layout is used: base yaw from atan2, shoulder from the planar reach triangle,
wrist joints from the target orientation. -/
def geometricCandidate (solver : KinematicsSolver) (tcp : PoseVector) : List ℝ :=
  [atan2 tcp.y tcp.x,
   Real.arccos (Real.sqrt (tcp.x ^ 2 + tcp.y ^ 2) / linkReach solver),
   tcp.pitch,
   tcp.roll,
   tcp.yaw - atan2 tcp.y tcp.x]

open Classical in
/-- Modelled from the spec: the geometric branch of the missing
`inverseTransformation` body (spec section 4.5, step 1): it returns its
candidate exactly when that candidate is a real, joint-limit-respecting
solution of the target pose. -/
def inverseTransformationGeometric (solver : KinematicsSolver) (tcp : PoseVector) :
    Option (List ℝ) :=
  if withinJointLimits (geometricCandidate solver tcp) ∧
      withinTolerance solver tcp (geometricCandidate solver tcp) then
    some (geometricCandidate solver tcp)
  else
    none

/-- Modelled from the spec: one deterministic refinement step of the numeric
search (spec section 4.5, step 2, leaves the step policy as an implementation
choice): move each joint halfway toward the geometric candidate. -/
def numericStep (solver : KinematicsSolver) (tcp : PoseVector) (c : List ℝ) : List ℝ :=
  ((geometricCandidate solver tcp).zip c).map fun gc => gc.2 + (gc.1 - gc.2) / 2

open Classical in
/-- Modelled from the spec: the bounded iteration of the numeric search; each
round tests the convergence criterion and otherwise refines the candidate,
for at most the given number of remaining iterations. -/
def numericSearch (solver : KinematicsSolver) (tcp : PoseVector) :
    Nat → List ℝ → Option (List ℝ)
  | 0, _ => none
  | Nat.succ n, c =>
    if withinTolerance solver tcp c then some c
    else numericSearch solver tcp n (numericStep solver tcp c)

/-- Modelled from the spec: the body of
`KinematicsSolver::inverseTransformationNumeric` is not in src.  Spec section
4.5, step 2: iterative refinement from a deterministic seed (the zero joint
vector), bounded by the fixed iteration budget. -/
def inverseTransformationNumeric (solver : KinematicsSolver) (tcp : PoseVector) :
    Option (List ℝ) :=
  numericSearch solver tcp MAX_ITERATIONS (List.replicate solver.dhTable.length 0)

/-- Modelled from the spec: the body of
`KinematicsSolver::inverseTransformation` is not in src.  Spec section 4.5:
geometric attempt first, returned immediately when it yields a valid
solution; numeric fallback only otherwise. -/
def inverseTransformation (solver : KinematicsSolver) (tcp : PoseVector) :
    Option (List ℝ) :=
  match inverseTransformationGeometric solver tcp with
  | some angles => some angles
  | none => inverseTransformationNumeric solver tcp

/-- A pose the solver can reach: its inverse transformation reports success. -/
def Reachable (solver : KinematicsSolver) (tcp : PoseVector) : Prop :=
  ∃ angles, inverseTransformation solver tcp = some angles

/-- The position triple of a pose as a point of Euclidean 3-space. -/
def positionOf (tcp : PoseVector) : EuclideanSpace ℝ (Fin 3) :=
  ![tcp.x, tcp.y, tcp.z]

/-- A concrete gimbal-lock rotation (pitch at +90° in the Z-Y-X convention). -/
def gimbalMatrix : Matrix (Fin 3) (Fin 3) ℝ :=
  !![0, 0, 1;
     0, 1, 0;
     -1, 0, 0]

/-- Modelled from the spec: the C++ method `forwardTransformation` receives
the solver state and its arguments by reference; the call's complete effect
is modelled as returning the post-call solver state, the post-call input
argument and the boolean-and-output result. -/
def forwardTransformationCall (solver : KinematicsSolver) (angles : List ℝ) :
    KinematicsSolver × List ℝ × Option PoseVector :=
  (solver, angles, forwardTransformation solver angles)

/-- Modelled from the spec: the C++ method `inverseTransformation` receives
the solver state and its arguments by reference; the call's complete effect
is modelled as returning the post-call solver state, the post-call input
argument and the boolean-and-output result. -/
def inverseTransformationCall (solver : KinematicsSolver) (tcp : PoseVector) :
    KinematicsSolver × PoseVector × Option (List ℝ) :=
  (solver, tcp, inverseTransformation solver tcp)

/-- The number `n` is the shortest angular representative of the difference
`d`: congruent to `d` modulo 2π and lying in the half-open interval (-π, π]. -/
def IsShortestAngleDiff (d n : ℝ) : Prop :=
  (∃ k : ℤ, n = d - 2 * π * k) ∧ -π < n ∧ n ≤ π

/-- A target used to exercise unreachable-target rejection: its X coordinate
is far outside any bound on the manipulator's reach. -/
def farPose : PoseVector := ⟨1000000, 0, 0, 0, 0, 0⟩

/-- The pure-translation homogeneous transform with offset (r, 0, d). -/
def transMat (r d : ℝ) : Matrix (Fin 4) (Fin 4) ℝ :=
  !![1, 0, 0, r;
     0, 1, 0, 0;
     0, 0, 1, d;
     0, 0, 0, 1]

/-- The home pose of the modelled table: all joint angles zero put the tool
at (4, 0, 1) with identity orientation. -/
def homePose : PoseVector := ⟨4, 0, 1, 0, 0, 0⟩

theorem rotZ_mul_transZ (θ d : ℝ) :
    rotZ θ * transZ d =
      !![Real.cos θ, -(Real.sin θ), 0, 0;
         Real.sin θ, Real.cos θ, 0, 0;
         0, 0, 1, d;
         0, 0, 0, 1] := by
  ext i j
  fin_cases i <;> fin_cases j <;>
    simp [rotZ, transZ, Matrix.mul_apply, Fin.sum_univ_four, Matrix.vecHead, Matrix.vecTail]

theorem rotZ_transZ_mul_transX (θ d r : ℝ) :
    rotZ θ * transZ d * transX r =
      !![Real.cos θ, -(Real.sin θ), 0, r * Real.cos θ;
         Real.sin θ, Real.cos θ, 0, r * Real.sin θ;
         0, 0, 1, d;
         0, 0, 0, 1] := by
  rw [rotZ_mul_transZ]
  ext i j
  fin_cases i <;> fin_cases j <;>
    simp [transX, Matrix.mul_apply, Fin.sum_univ_four, mul_comm, Matrix.vecHead, Matrix.vecTail]

/-- C3: for every four real DH parameters, `dhTransformation` is exactly the
composition rotate-about-Z by θ, translate along Z by d, translate along the
new X by r, rotate about that X by α; being a Lean function it is pure and
total, with no failure case. -/
theorem dhTransformation_eq_composition (θ d α r : ℝ) :
    dhTransformation θ d α r = rotZ θ * transZ d * transX r * rotX α := by
  rw [rotZ_transZ_mul_transX]
  ext i j
  fin_cases i <;> fin_cases j <;>
    simp [dhTransformation, rotX, Matrix.mul_apply, Fin.sum_univ_four, Matrix.vecHead, Matrix.vecTail]

theorem numericSearch_sound (solver : KinematicsSolver) (tcp : PoseVector) :
    ∀ (n : Nat) (c a : List ℝ),
      numericSearch solver tcp n c = some a → withinTolerance solver tcp a := by
  intro n
  induction n with
  | zero =>
    intro c a h
    simp [numericSearch] at h
  | succ n ih =>
    intro c a h
    rw [numericSearch] at h
    by_cases hc : withinTolerance solver tcp c
    · rw [if_pos hc] at h
      cases h
      exact hc
    · rw [if_neg hc] at h
      exact ih _ _ h

theorem inverseTransformationGeometric_sound (solver : KinematicsSolver) (tcp : PoseVector)
    (a : List ℝ) (h : inverseTransformationGeometric solver tcp = some a) :
    withinTolerance solver tcp a := by
  unfold inverseTransformationGeometric at h
  by_cases hc : withinJointLimits (geometricCandidate solver tcp) ∧
      withinTolerance solver tcp (geometricCandidate solver tcp)
  · rw [if_pos hc] at h
    cases h
    exact hc.2
  · rw [if_neg hc] at h
    cases h

theorem inverseTransformation_sound (solver : KinematicsSolver) (tcp : PoseVector)
    (a : List ℝ) (h : inverseTransformation solver tcp = some a) :
    withinTolerance solver tcp a := by
  unfold inverseTransformation at h
  cases hg : inverseTransformationGeometric solver tcp with
  | some b =>
    rw [hg] at h
    cases h
    exact inverseTransformationGeometric_sound _ _ _ hg
  | none =>
    rw [hg] at h
    unfold inverseTransformationNumeric at h
    exact numericSearch_sound _ _ _ _ _ h

/-- C1: for every reachable target pose, the inverse transformation succeeds
with some angle vector, and forward kinematics of that vector succeeds with a
pose whose position error and orientation error against the target are both
below the solver's fixed tolerance thresholds. -/
theorem inverse_forward_roundTrip (solver : KinematicsSolver) (tcp : PoseVector)
    (h : Reachable solver tcp) :
    ∃ angles p, inverseTransformation solver tcp = some angles ∧
      forwardTransformation solver angles = some p ∧
      calculateDistanceBetweenTCPS p tcp < POS_TOLERANCE ∧
      calculateAngleErrorBetweenTCPS p tcp < ANGLE_TOLERANCE := by
  obtain ⟨angles, ha⟩ := h
  obtain ⟨p, hp, hd, hang⟩ := inverseTransformation_sound solver tcp angles ha
  exact ⟨angles, p, ha, hp, hd, hang⟩

/-- C2: the forward transformation fails exactly when the length of the angle
vector differs from the configured link count, and succeeds on every joint
vector of the correct length. -/
theorem forwardTransformation_none_iff (solver : KinematicsSolver) (angles : List ℝ) :
    forwardTransformation solver angles = none ↔
      angles.length ≠ solver.dhTable.length := by
  by_cases h : angles.length = solver.dhTable.length <;> simp [forwardTransformation, h]

/-- C4: the inverse transformation tries the closed-form geometric branch
first and returns a valid geometric solution immediately; the numeric search
is entered only when the geometric attempt finds no valid solution. -/
theorem inverseTransformation_geometric_first (solver : KinematicsSolver) (tcp : PoseVector) :
    (∀ a, inverseTransformationGeometric solver tcp = some a →
        inverseTransformation solver tcp = some a) ∧
    (inverseTransformationGeometric solver tcp = none →
      inverseTransformation solver tcp = inverseTransformationNumeric solver tcp) := by
  constructor
  · intro a h
    simp [inverseTransformation, h]
  · intro h
    simp [inverseTransformation, h]

/-- C6: the TCP distance equals the Euclidean distance of the (X, Y, Z)
position triples of the two poses. -/
theorem calculateDistanceBetweenTCPS_eq_dist (tcp1 tcp2 : PoseVector) :
    calculateDistanceBetweenTCPS tcp1 tcp2 = dist (positionOf tcp1) (positionOf tcp2) := by
  rw [EuclideanSpace.dist_eq]
  simp [calculateDistanceBetweenTCPS, positionOf, Fin.sum_univ_three, Real.dist_eq, sq_abs]

/-- C8: the rotation-to-pose conversion resolves every gimbal-lock input
(entry (2,0) of the rotation block at ±1, i.e. pitch at ±90°) by the one
fixed degenerate-angle convention: roll is set to 0 and pitch to ∓π/2; no
error is reported, a value is always returned. -/
theorem convertRotation_gimbalLock (R : Matrix (Fin 3) (Fin 3) ℝ)
    (h : R 2 0 = -1 ∨ R 2 0 = 1) :
    (convertRotationMatrixToTCPVector R).1 = 0 ∧
      (convertRotationMatrixToTCPVector R).2.1 = -(R 2 0) * (π / 2) := by
  rcases h with h | h
  · simp [convertRotationMatrixToTCPVector, h]
  · simp [convertRotationMatrixToTCPVector, h]
    norm_num

theorem gimbalMatrix_entry : gimbalMatrix 2 0 = -1 := by
  norm_num [gimbalMatrix]

theorem convertRotation_gimbalLock_witness :
    (convertRotationMatrixToTCPVector gimbalMatrix).1 = 0 ∧
      (convertRotationMatrixToTCPVector gimbalMatrix).2.1 =
        -(gimbalMatrix 2 0) * (π / 2) :=
  convertRotation_gimbalLock gimbalMatrix (Or.inl gimbalMatrix_entry)

/-- C9: neither public call mutates anything but its designated output: the
solver's DH configuration and the caller's input vector are identical before
and after every forward and every inverse call. -/
theorem calls_preserve_state (solver : KinematicsSolver) (angles : List ℝ) (tcp : PoseVector) :
    (forwardTransformationCall solver angles).1 = solver ∧
      (forwardTransformationCall solver angles).2.1 = angles ∧
      (inverseTransformationCall solver tcp).1 = solver ∧
      (inverseTransformationCall solver tcp).2.1 = tcp :=
  ⟨rfl, rfl, rfl, rfl⟩

/-- C10: the constructor takes no parameters, so any two constructed solver
instances agree on every forward query and on every inverse query. -/
theorem constructed_solvers_agree (s1 s2 : KinematicsSolver)
    (angles : List ℝ) (tcp : PoseVector)
    (h1 : s1 = KinematicsSolver.create) (h2 : s2 = KinematicsSolver.create) :
    forwardTransformation s1 angles = forwardTransformation s2 angles ∧
      inverseTransformation s1 tcp = inverseTransformation s2 tcp := by
  subst h1
  subst h2
  exact ⟨rfl, rfl⟩

theorem constructed_solvers_agree_witness :
    forwardTransformation KinematicsSolver.create [0, 0, 0, 0, 0] =
        forwardTransformation KinematicsSolver.create [0, 0, 0, 0, 0] ∧
      inverseTransformation KinematicsSolver.create ⟨0, 0, 0, 0, 0, 0⟩ =
        inverseTransformation KinematicsSolver.create ⟨0, 0, 0, 0, 0, 0⟩ :=
  constructed_solvers_agree KinematicsSolver.create KinematicsSolver.create
    [0, 0, 0, 0, 0] ⟨0, 0, 0, 0, 0, 0⟩ rfl rfl

theorem two_pi_pos : (0 : ℝ) < 2 * π := by
  have := Real.pi_pos
  linarith

theorem normalizeAngle_isShortest (a : ℝ) : IsShortestAngleDiff a (normalizeAngle a) := by
  have h2π : (0 : ℝ) < 2 * π := two_pi_pos
  have hy : a / (2 * π) * (2 * π) = a := div_mul_cancel₀ a (ne_of_gt h2π)
  have hA : a / (2 * π) - 1 / 2 ≤ ((⌈a / (2 * π) - 1 / 2⌉ : ℤ) : ℝ) := Int.le_ceil _
  have hB : ((⌈a / (2 * π) - 1 / 2⌉ : ℤ) : ℝ) < a / (2 * π) - 1 / 2 + 1 :=
    Int.ceil_lt_add_one _
  have hA2 : (a / (2 * π) - 1 / 2) * (2 * π) ≤ ((⌈a / (2 * π) - 1 / 2⌉ : ℤ) : ℝ) * (2 * π) :=
    mul_le_mul_of_nonneg_right hA (le_of_lt h2π)
  have hB2 : ((⌈a / (2 * π) - 1 / 2⌉ : ℤ) : ℝ) * (2 * π) < (a / (2 * π) - 1 / 2 + 1) * (2 * π) :=
    mul_lt_mul_of_pos_right hB h2π
  rw [sub_mul, hy] at hA2
  rw [add_mul, sub_mul, hy] at hB2
  refine ⟨⟨⌈a / (2 * π) - 1 / 2⌉, rfl⟩, ?_, ?_⟩ <;>
    (unfold normalizeAngle; nlinarith [Real.pi_pos])

/-- C7: the angle error between two TCP vectors is the sum, over the Roll,
Pitch and Yaw components, of the absolute values of the shortest angular
representatives of the per-component differences — each difference is reduced
modulo 2π into (-π, π] before taking its absolute value. -/
theorem calculateAngleError_eq_shortest (tcp1 tcp2 : PoseVector) :
    ∃ nr np ny,
      IsShortestAngleDiff (tcp1.roll - tcp2.roll) nr ∧
      IsShortestAngleDiff (tcp1.pitch - tcp2.pitch) np ∧
      IsShortestAngleDiff (tcp1.yaw - tcp2.yaw) ny ∧
      calculateAngleErrorBetweenTCPS tcp1 tcp2 = |nr| + |np| + |ny| :=
  ⟨normalizeAngle (tcp1.roll - tcp2.roll), normalizeAngle (tcp1.pitch - tcp2.pitch),
    normalizeAngle (tcp1.yaw - tcp2.yaw),
    normalizeAngle_isShortest _, normalizeAngle_isShortest _, normalizeAngle_isShortest _, rfl⟩

theorem abs_mul_le_one {x y : ℝ} (hx : |x| ≤ 1) (hy : |y| ≤ 1) : |x * y| ≤ 1 := by
  rw [abs_mul]
  nlinarith [abs_nonneg x, abs_nonneg y]

theorem dhTransformation_entry_bound (θ d α r : ℝ) (hd : |d| ≤ 1) (hr : |r| ≤ 1)
    (i j : Fin 4) : |dhTransformation θ d α r i j| ≤ 1 := by
  have hct := Real.abs_cos_le_one θ
  have hst := Real.abs_sin_le_one θ
  have hca := Real.abs_cos_le_one α
  have hsa := Real.abs_sin_le_one α
  fin_cases i <;> fin_cases j <;>
    simp [dhTransformation, Matrix.vecHead, Matrix.vecTail] <;>
    first
      | assumption
      | exact abs_mul_le_one hst hca
      | exact abs_mul_le_one hst hsa
      | exact abs_mul_le_one hct hca
      | exact abs_mul_le_one hct hsa
      | exact abs_mul_le_one hr hct
      | exact abs_mul_le_one hr hst

theorem mul_entry_bound {M N : Matrix (Fin 4) (Fin 4) ℝ} {c : ℝ}
    (hM : ∀ i j, |M i j| ≤ c) (hN : ∀ i j, |N i j| ≤ 1) (i j : Fin 4) :
    |(M * N) i j| ≤ 4 * c := by
  have hc : 0 ≤ c := le_trans (abs_nonneg _) (hM 0 0)
  rw [Matrix.mul_apply]
  calc |∑ k : Fin 4, M i k * N k j| ≤ ∑ k : Fin 4, |M i k * N k j| :=
        Finset.abs_sum_le_sum_abs _ _
    _ ≤ ∑ _k : Fin 4, c := by
        refine Finset.sum_le_sum fun k _ => ?_
        rw [abs_mul]
        calc |M i k| * |N k j| ≤ c * 1 :=
              mul_le_mul (hM i k) (hN k j) (abs_nonneg _) hc
          _ = c := mul_one c
    _ = 4 * c := by
        rw [Finset.sum_const, Finset.card_univ]
        simp [nsmul_eq_mul]

theorem chainfold_entry_bound :
    ∀ (links : List (DHParam × ℝ)) (M : Matrix (Fin 4) (Fin 4) ℝ) (c : ℝ),
      (∀ la ∈ links, |la.1.d| ≤ 1 ∧ |la.1.r| ≤ 1) →
      (∀ i j, |M i j| ≤ c) →
      ∀ i j,
        |(links.foldl
            (fun M la => M * dhTransformation (la.1.theta + la.2) la.1.d la.1.alpha la.1.r)
            M) i j| ≤ 4 ^ links.length * c := by
  intro links
  induction links with
  | nil =>
    intro M c _ hM i j
    simpa using hM i j
  | cons la rest ih =>
    intro M c hp hM i j
    have hla := hp la (List.mem_cons_self _ _)
    have step : ∀ i j,
        |(M * dhTransformation (la.1.theta + la.2) la.1.d la.1.alpha la.1.r) i j| ≤ 4 * c :=
      mul_entry_bound hM (dhTransformation_entry_bound _ _ _ _ hla.1 hla.2)
    have hrest := ih _ (4 * c) (fun x hx => hp x (List.mem_cons_of_mem _ hx)) step i j
    simp only [List.foldl_cons]
    refine le_trans hrest (le_of_eq ?_)
    rw [List.length_cons, pow_succ]
    ring

theorem chainTransform_entry_bound (links : List (DHParam × ℝ))
    (hp : ∀ la ∈ links, |la.1.d| ≤ 1 ∧ |la.1.r| ≤ 1) (i j : Fin 4) :
    |chainTransform links i j| ≤ 4 ^ links.length := by
  have h1 : ∀ i j, |(1 : Matrix (Fin 4) (Fin 4) ℝ) i j| ≤ 1 := by
    intro i j
    by_cases h : i = j <;> simp [Matrix.one_apply, h]
  simpa using chainfold_entry_bound links 1 1 hp h1 i j

theorem youBotDHTable_params_bound :
    ∀ p ∈ youBotDHTable, |p.d| ≤ (1 : ℝ) ∧ |p.r| ≤ (1 : ℝ) := by
  intro p hp
  simp only [youBotDHTable, List.mem_cons, List.not_mem_nil, or_false] at hp
  rcases hp with h | h | h | h | h <;> rw [h] <;> norm_num

theorem forward_position_bound (a : List ℝ) (p : PoseVector)
    (hf : forwardTransformation KinematicsSolver.create a = some p) : |p.x| ≤ 1024 := by
  unfold forwardTransformation at hf
  by_cases h : a.length = KinematicsSolver.create.dhTable.length
  · rw [if_pos h] at hf
    have hp : ∀ la ∈ KinematicsSolver.create.dhTable.zip a, |la.1.d| ≤ (1 : ℝ) ∧ |la.1.r| ≤ (1 : ℝ) := by
      intro la hla
      exact youBotDHTable_params_bound la.1 (List.of_mem_zip hla).1
    have hlen : (KinematicsSolver.create.dhTable.zip a).length = 5 := by
      rw [List.length_zip, h]
      simp [KinematicsSolver.create, youBotDHTable]
    have hb := chainTransform_entry_bound _ hp 0 3
    rw [hlen] at hb
    norm_num at hb
    cases hf
    simpa [convertTransformToTCPVector] using hb
  · rw [if_neg h] at hf
    cases hf

theorem farPose_unreachable :
    ∀ angles, ¬ withinTolerance KinematicsSolver.create farPose angles := by
  rintro a ⟨p, hf, hd, -⟩
  have hx := forward_position_bound a p hf
  have hge : |p.x - farPose.x| ≤ calculateDistanceBetweenTCPS p farPose := by
    unfold calculateDistanceBetweenTCPS
    rw [← Real.sqrt_sq_eq_abs]
    apply Real.sqrt_le_sqrt
    nlinarith [sq_nonneg (p.y - farPose.y), sq_nonneg (p.z - farPose.z)]
  have habs : (1000000 : ℝ) - |p.x| ≤ |p.x - farPose.x| := by
    have h1 : |farPose.x| - |p.x| ≤ |farPose.x - p.x| := abs_sub_abs_le_abs_sub _ _
    have h2 : |farPose.x - p.x| = |p.x - farPose.x| := abs_sub_comm _ _
    have h3 : |farPose.x| = (1000000 : ℝ) := by
      simp [farPose]
    linarith
  have hPT : calculateDistanceBetweenTCPS p farPose < 1 / 100 := by
    simpa [POS_TOLERANCE] using hd
  linarith

theorem numericSearch_fail (solver : KinematicsSolver) (tcp : PoseVector)
    (h : ∀ angles, ¬ withinTolerance solver tcp angles) :
    ∀ (n : Nat) (c : List ℝ), numericSearch solver tcp n c = none := by
  intro n
  induction n with
  | zero =>
    intro c
    simp [numericSearch]
  | succ n ih =>
    intro c
    rw [numericSearch, if_neg (h c)]
    exact ih _

theorem inverseTransformationGeometric_fail (solver : KinematicsSolver) (tcp : PoseVector)
    (h : ∀ angles, ¬ withinTolerance solver tcp angles) :
    inverseTransformationGeometric solver tcp = none := by
  unfold inverseTransformationGeometric
  rw [if_neg]
  rintro ⟨-, hw⟩
  exact h _ hw

/-- C5: the inverse transformation is a bounded computation: the numeric
search runs on a fixed iteration budget, any round whose candidate meets both
tolerance thresholds returns success at once, and a target no joint vector
can meet within tolerance — in particular any kinematically unreachable
target — is rejected with failure instead of looping indefinitely. -/
theorem inverse_bounded_termination (solver : KinematicsSolver) (tcp : PoseVector) :
    inverseTransformationNumeric solver tcp =
        numericSearch solver tcp MAX_ITERATIONS (List.replicate solver.dhTable.length 0) ∧
      (∀ n c, withinTolerance solver tcp c →
        numericSearch solver tcp (Nat.succ n) c = some c) ∧
      ((∀ angles, ¬ withinTolerance solver tcp angles) →
        inverseTransformation solver tcp = none) := by
  refine ⟨rfl, ?_, ?_⟩
  · intro n c hc
    rw [numericSearch, if_pos hc]
  · intro h
    unfold inverseTransformation
    rw [inverseTransformationGeometric_fail solver tcp h]
    unfold inverseTransformationNumeric
    exact numericSearch_fail solver tcp h _ _

theorem dhTransformation_zero (d r : ℝ) : dhTransformation 0 d 0 r = transMat r d := by
  ext i j
  fin_cases i <;> fin_cases j <;>
    simp [dhTransformation, transMat, Matrix.vecHead, Matrix.vecTail, Function.comp]

theorem transMat_mul (r d r' d' : ℝ) :
    transMat r d * transMat r' d' = transMat (r + r') (d + d') := by
  ext i j
  fin_cases i <;> fin_cases j
  all_goals
    simp [transMat, Matrix.mul_apply, Fin.sum_univ_four, Matrix.vecHead, Matrix.vecTail,
      Function.comp]
  all_goals ring

theorem chainTransform_home :
    chainTransform (youBotDHTable.zip [0, 0, 0, 0, 0]) = transMat 4 1 := by
  have h0 : ∀ d r : ℝ, dhTransformation (0 + 0) d 0 r = transMat r d := fun d r => by
    rw [zero_add, dhTransformation_zero]
  show chainTransform [(⟨0, 1, 0, 0⟩, 0), (⟨0, 0, 0, 1⟩, 0), (⟨0, 0, 0, 1⟩, 0),
    (⟨0, 0, 0, 1⟩, 0), (⟨0, 0, 0, 1⟩, 0)] = transMat 4 1
  simp only [chainTransform, List.foldl_cons, List.foldl_nil, h0, one_mul, transMat_mul]
  norm_num

theorem atan2_zero_of_pos {x : ℝ} (hx : 0 < x) : atan2 0 x = 0 := by
  rw [atan2, if_pos hx, zero_div, Real.arctan_zero]

theorem convert_transMat_home : convertTransformToTCPVector (transMat 4 1) = homePose := by
  have e20 : transMat (4 : ℝ) 1 2 0 = 0 := by norm_num [transMat, Matrix.vecHead, Matrix.vecTail]
  have e21 : transMat (4 : ℝ) 1 2 1 = 0 := by norm_num [transMat, Matrix.vecHead, Matrix.vecTail]
  have e22 : transMat (4 : ℝ) 1 2 2 = 1 := by norm_num [transMat, Matrix.vecHead, Matrix.vecTail]
  have e10 : transMat (4 : ℝ) 1 1 0 = 0 := by norm_num [transMat, Matrix.vecHead, Matrix.vecTail]
  have e00 : transMat (4 : ℝ) 1 0 0 = 1 := by norm_num [transMat, Matrix.vecHead, Matrix.vecTail]
  have hrot : convertRotationMatrixToTCPVector (rotationBlock (transMat 4 1)) = (0, 0, 0) := by
    rw [convertRotationMatrixToTCPVector]
    rw [if_neg, if_neg]
    · have h21 : rotationBlock (transMat 4 1) 2 1 = 0 := by
        simp [rotationBlock, e21]
      have h22 : rotationBlock (transMat 4 1) 2 2 = 1 := by
        simp [rotationBlock, e22]
      have h20 : rotationBlock (transMat 4 1) 2 0 = 0 := by
        simp [rotationBlock, e20]
      have h10 : rotationBlock (transMat 4 1) 1 0 = 0 := by
        simp [rotationBlock, e10]
      have h00 : rotationBlock (transMat 4 1) 0 0 = 1 := by
        simp [rotationBlock, e00]
      rw [h21, h22, h20, h10, h00, atan2_zero_of_pos one_pos, neg_zero, Real.arcsin_zero]
    · have h20 : rotationBlock (transMat 4 1) 2 0 = 0 := by
        simp [rotationBlock, e20]
      rw [h20]
      norm_num
    · have h20 : rotationBlock (transMat 4 1) 2 0 = 0 := by
        simp [rotationBlock, e20]
      rw [h20]
      norm_num
  rw [convertTransformToTCPVector, hrot]
  show (⟨transMat 4 1 0 3, transMat 4 1 1 3, transMat 4 1 2 3, 0, 0, 0⟩ : PoseVector) = homePose
  have e03 : transMat (4 : ℝ) 1 0 3 = 4 := by norm_num [transMat, Matrix.vecHead, Matrix.vecTail]
  have e13 : transMat (4 : ℝ) 1 1 3 = 0 := by norm_num [transMat, Matrix.vecHead, Matrix.vecTail]
  have e23 : transMat (4 : ℝ) 1 2 3 = 1 := by norm_num [transMat, Matrix.vecHead, Matrix.vecTail]
  rw [e03, e13, e23]
  rfl

theorem forward_home :
    forwardTransformation KinematicsSolver.create [0, 0, 0, 0, 0] = some homePose := by
  have hlen : ([(0 : ℝ), 0, 0, 0, 0]).length = KinematicsSolver.create.dhTable.length := by
    simp [KinematicsSolver.create, youBotDHTable]
  rw [forwardTransformation, if_pos hlen]
  show some (convertTransformToTCPVector (chainTransform (youBotDHTable.zip [0, 0, 0, 0, 0]))) =
    some homePose
  rw [chainTransform_home, convert_transMat_home]

theorem calculateDistance_self (p : PoseVector) : calculateDistanceBetweenTCPS p p = 0 := by
  simp [calculateDistanceBetweenTCPS]

theorem normalizeAngle_zero : normalizeAngle 0 = 0 := by
  rw [normalizeAngle, zero_div, zero_sub]
  norm_num

theorem calculateAngleError_self (p : PoseVector) : calculateAngleErrorBetweenTCPS p p = 0 := by
  simp [calculateAngleErrorBetweenTCPS, normalizeAngle_zero]

theorem withinTolerance_home :
    withinTolerance KinematicsSolver.create homePose [0, 0, 0, 0, 0] := by
  refine ⟨homePose, forward_home, ?_, ?_⟩
  · rw [calculateDistance_self]
    norm_num [POS_TOLERANCE]
  · rw [calculateAngleError_self]
    norm_num [ANGLE_TOLERANCE]

theorem linkReach_create : linkReach KinematicsSolver.create = 4 := by
  norm_num [linkReach, KinematicsSolver.create, youBotDHTable]

theorem geometricCandidate_home :
    geometricCandidate KinematicsSolver.create homePose = [0, 0, 0, 0, 0] := by
  have ha : atan2 homePose.y homePose.x = 0 := by
    have : homePose.y = 0 := rfl
    rw [this]
    exact atan2_zero_of_pos (by norm_num [homePose])
  have hs : Real.sqrt (homePose.x ^ 2 + homePose.y ^ 2) = 4 := by
    have : homePose.x ^ 2 + homePose.y ^ 2 = 4 ^ 2 := by norm_num [homePose]
    rw [this, Real.sqrt_sq (by norm_num : (0 : ℝ) ≤ 4)]
  rw [geometricCandidate, ha, hs, linkReach_create]
  have : (4 : ℝ) / 4 = 1 := by norm_num
  rw [this, Real.arccos_one]
  show [0, 0, homePose.pitch, homePose.roll, homePose.yaw - 0] = [0, 0, 0, 0, 0]
  norm_num [homePose]

theorem withinJointLimits_zero : withinJointLimits [0, 0, 0, 0, 0] := by
  intro a ha
  simp only [List.mem_cons, List.not_mem_nil, or_false] at ha
  have : a = 0 := by tauto
  rw [this, abs_zero]
  exact Real.pi_pos.le

theorem geometric_home :
    inverseTransformationGeometric KinematicsSolver.create homePose = some [0, 0, 0, 0, 0] := by
  rw [inverseTransformationGeometric, geometricCandidate_home,
    if_pos ⟨withinJointLimits_zero, withinTolerance_home⟩]

theorem inverse_home :
    inverseTransformation KinematicsSolver.create homePose = some [0, 0, 0, 0, 0] := by
  rw [inverseTransformation, geometric_home]

theorem reachable_home : Reachable KinematicsSolver.create homePose :=
  ⟨[0, 0, 0, 0, 0], inverse_home⟩

theorem inverse_forward_roundTrip_witness :
    Reachable KinematicsSolver.create homePose ∧
      ∃ angles p, inverseTransformation KinematicsSolver.create homePose = some angles ∧
        forwardTransformation KinematicsSolver.create angles = some p ∧
        calculateDistanceBetweenTCPS p homePose < POS_TOLERANCE ∧
        calculateAngleErrorBetweenTCPS p homePose < ANGLE_TOLERANCE :=
  ⟨reachable_home, inverse_forward_roundTrip KinematicsSolver.create homePose reachable_home⟩

theorem geometric_far_none :
    inverseTransformationGeometric KinematicsSolver.create farPose = none :=
  inverseTransformationGeometric_fail KinematicsSolver.create farPose farPose_unreachable

theorem inverseTransformation_geometric_first_witness :
    inverseTransformation KinematicsSolver.create homePose = some [0, 0, 0, 0, 0] ∧
      inverseTransformation KinematicsSolver.create farPose =
        inverseTransformationNumeric KinematicsSolver.create farPose :=
  ⟨(inverseTransformation_geometric_first KinematicsSolver.create homePose).1 _ geometric_home,
    (inverseTransformation_geometric_first KinematicsSolver.create farPose).2 geometric_far_none⟩

theorem inverse_bounded_termination_witness :
    numericSearch KinematicsSolver.create homePose (Nat.succ 0) [0, 0, 0, 0, 0] =
        some [0, 0, 0, 0, 0] ∧
      inverseTransformation KinematicsSolver.create farPose = none :=
  ⟨(inverse_bounded_termination KinematicsSolver.create homePose).2.1 0 _ withinTolerance_home,
    (inverse_bounded_termination KinematicsSolver.create farPose).2.2 farPose_unreachable⟩

end YoubotKinematics

end
